import Mathlib

/-!
Verification of the svg2librepcb geometry-normalization and emission pipeline
(src/main.rs) against its natural-language specification.

Shallow embedding conventions:
* Rust `f64` coordinates are modelled as rationals (`ℚ`).  All inputs are
  finite per the data model; a rational cannot carry the sign of an IEEE
  negative zero, so input coordinates are assumed not to be `-0.0` (the
  flattener produces ordinary finite values).  Where the code itself
  produces a negative zero (the vertex emission negates `pair.y + dy`),
  the sign is modelled explicitly (`fmtY`).
* Rust `String` values are modelled as `List Char`.
* Rust `format!("{:.3}", v)` — fixed three-decimal rendering with correct
  rounding (ties to even) of the value — is modelled by `fmt3`.
* Index/`unwrap` panics are modelled by `Option`: a `none` result marks a
  panicking execution.
* `Uuid::new_v4()` (an opaque fresh-identifier primitive) is modelled by an
  ambient stream `uuids : Nat → List Char`, consumed in call order, and
  `Utc::now()` by an opaque `now : List Char` parameter.
-/

namespace SvgLib

/-- Convert a string literal to the `List Char` it denotes. -/
def chars (s : String) : List Char := s.data

/-- A 2D point in source (SVG, Y-down) space; `svg2polylines::CoordinatePair`. -/
structure Point where
  x : ℚ
  y : ℚ
deriving DecidableEq

/-- `svg2polylines::Polyline` is a vector of coordinate pairs. -/
abbrev Polyline := List Point

/-- The `Align` enum of src/main.rs (lines 91-97). -/
inductive Align where
  | none
  | center
  | topLeft
  | bottomLeft
deriving DecidableEq

/-- The `Bounds` struct of src/main.rs (lines 99-103): transformed Y bounds. -/
structure Bounds where
  y_min : ℚ
  y_max : ℚ
deriving DecidableEq

/-- `#[derive(Default)]` for `Bounds`: both fields zero. -/
def Bounds.default : Bounds := { y_min := 0, y_max := 0 }

/-- The `Polygon` struct of src/main.rs (lines 105-110). -/
structure Polygon where
  lines : List (List Char)
  transformed_bounds : Bounds

/-! ### Float formatting (src/main.rs lines 112-128) -/

/-- Decimal digit character, `0 ≤ n ≤ 9` in use. -/
def natDigitChar (n : Nat) : Char := Char.ofNat (48 + n)

/-- Accumulate the decimal digits of `n` (most significant first) onto `acc`;
structural recursion on a fuel argument (`fuel ≥ n` suffices, since `n`
shrinks at least as fast as the fuel). -/
def natReprGo : Nat → Nat → List Char → List Char
  | 0, _, acc => acc
  | fuel + 1, n, acc =>
      if n = 0 then acc else natReprGo fuel (n / 10) (natDigitChar (n % 10) :: acc)

/-- Decimal rendering of a natural number. -/
def natRepr (n : Nat) : List Char :=
  if n = 0 then chars "0" else natReprGo n n []

/-- Three decimal digits of `n < 1000`, zero padded. -/
def pad3 (n : Nat) : List Char :=
  [natDigitChar (n / 100), natDigitChar (n / 10 % 10), natDigitChar (n % 10)]

/-- Round to the nearest integer, ties to even (the rounding performed by
Rust fixed-precision float formatting). -/
def roundTE (q : ℚ) : ℤ :=
  let f := ⌊q⌋
  let r := q - f
  if r < 1 / 2 then f
  else if 1 / 2 < r then f + 1
  else if f % 2 = 0 then f else f + 1

/-- Digits (no sign) of `format!("{:.3}", v)` for a non-negative value `q`. -/
def fmt3mag (q : ℚ) : List Char :=
  let n := (roundTE (q * 1000)).toNat
  natRepr (n / 1000) ++ '.' :: pad3 (n % 1000)

/-- Model of `format!("{:.3}", v)` for a value that is not an IEEE `-0.0`. -/
def fmt3 (q : ℚ) : List Char :=
  if q < 0 then '-' :: fmt3mag (-q) else fmt3mag q

/-- The trailing-zero stripping of `format_float` (src/main.rs lines 119-126):
if the text ends in `'0'`, strip `"00"` when the second-to-last character is
also `'0'`, else strip the single `'0'`. -/
def stripZeros (s : List Char) : List Char :=
  if s.getLast? = some '0' then
    if s.reverse[1]? = some '0' then s.dropLast.dropLast
    else s.dropLast
  else s

/-- `format_float` (src/main.rs lines 112-128).  The guard `val == -0.0` is
IEEE float equality, true exactly for positive and negative zero — in the
rational model, for `q = 0`. -/
def format_float (q : ℚ) : List Char :=
  if q = 0 then chars "0.0" else stripZeros (fmt3 q)

/-! ### Bounds fold and alignment offset (src/main.rs lines 143-166) -/

/-- The four running bounds locals of `make_polygon`. -/
structure BBox where
  x_min : ℚ
  x_max : ℚ
  y_min : ℚ
  y_max : ℚ
deriving DecidableEq

/-- One step of the bounds fold (src/main.rs lines 149-152):
`x_min = pair.x.min(x_min)` etc. -/
def boundsStep (b : BBox) (p : Point) : BBox :=
  { x_min := min p.x b.x_min, x_max := max p.x b.x_max,
    y_min := min p.y b.y_min, y_max := max p.y b.y_max }

/-- The bounds computation of `make_polygon` (src/main.rs lines 143-154):
start from `polylines[0][0]` and fold over every point of every polyline.
`none` models the index panic when the first polyline is empty; the empty
collection is unreachable here (guarded at line 132). -/
def svgBounds : List Polyline → Option BBox
  | [] => Option.none
  | [] :: _ => Option.none
  | (p :: ps) :: rest =>
      Option.some (((p :: ps) :: rest).foldl (fun b pl => pl.foldl boundsStep b)
        { x_min := p.x, x_max := p.x, y_min := p.y, y_max := p.y })

/-- The alignment offset (src/main.rs lines 156-166), in SVG coordinates. -/
def offset (align : Align) (b : BBox) : ℚ × ℚ :=
  match align with
  | Align.none => (0, 0)
  | Align.center =>
      (-b.x_min - (b.x_max - b.x_min) / 2, -b.y_min - (b.y_max - b.y_min) / 2)
  | Align.topLeft => (-b.x_min, -b.y_min)
  | Align.bottomLeft => (-b.x_min, -b.y_max)

/-! ### Polygon emission (src/main.rs lines 168-197) -/

/-- Rendering of the emitted Y coordinate `-(pair.y + dy)` where `t` is the
`f64` value `pair.y + dy`: Rust prints the sign of the negated float, so a
zero `t` (which is `+0.0`) prints as `-0.000`. -/
def fmtY (t : ℚ) : List Char :=
  if 0 ≤ t then '-' :: fmt3mag t else fmt3mag (-t)

/-- A vertex line (src/main.rs lines 180-186); `x` is `pair.x + dx` and `t`
is `pair.y + dy` (the emitted Y value is `-(t)`). -/
def vertexLine (x t : ℚ) : List Char :=
  chars "  (vertex (position " ++ fmt3 x ++ [' '] ++ fmtY t ++ chars ") (angle 0.0))"

/-- Closedness test (src/main.rs line 170):
`polyline[0] == polyline[polyline.len() - 1]` for a non-empty polyline. -/
def isClosed (pl : Polyline) : Bool := pl.head? = pl.getLast?

/-- The width/fill/grab_area line (src/main.rs lines 176-179); the fill
argument is spliced into both the `fill` and the `grab_area` slot, mirroring
the format string `"  (width {0}) (fill {1}) (grab_area {1})"`. -/
def styleLine (width fill : List Char) : List Char :=
  chars "  (width " ++ width ++ chars ") (fill " ++ fill ++
    chars ") (grab_area " ++ fill ++ chars ")"

/-- The lines emitted for one polyline (src/main.rs lines 169-188).
`none` models the index panic on an empty polyline (line 170). -/
def polylineLines (uuid layer : List Char) (dx dy : ℚ) (pl : Polyline) :
    Option (List (List Char)) :=
  if pl = [] then Option.none
  else
    let wf := if isClosed pl then (chars "0.0", chars "true")
              else (chars "0.2", chars "false")
    Option.some
      ((chars " (polygon \"" ++ uuid ++ chars "\" (layer " ++ layer ++ chars ")") ::
        styleLine wf.1 wf.2 ::
        (pl.map (fun p => vertexLine (p.x + dx) (p.y + dy)) ++ [chars " )"]))

/-- The vertex-generation loop over all polylines (src/main.rs lines 168-188);
the `k`-th polyline consumes the `k`-th fresh uuid. -/
def polygonBody (layer : List Char) (dx dy : ℚ) (uuids : Nat → List Char)
    (k : Nat) : List Polyline → Option (List (List Char))
  | [] => Option.some []
  | pl :: rest =>
      match polylineLines (uuids k) layer dx dy pl,
            polygonBody layer dx dy uuids (k + 1) rest with
      | Option.some ls, Option.some rs => Option.some (ls ++ rs)
      | _, _ => Option.none

/-- `make_polygon` (src/main.rs lines 130-197). -/
def make_polygon (layer : List Char) (align : Align) (polylines : List Polyline)
    (uuids : Nat → List Char) : Option Polygon :=
  if polylines = [] then
    Option.some { lines := [], transformed_bounds := Bounds.default }
  else
    match svgBounds polylines with
    | Option.none => Option.none
    | Option.some b =>
        let o := offset align b
        match polygonBody layer o.1 o.2 uuids 0 polylines with
        | Option.none => Option.none
        | Option.some ls =>
            Option.some { lines := ls,
                          transformed_bounds :=
                            { y_min := b.y_min + o.2, y_max := b.y_max + o.2 } }

/-! ### Footprint and symbol builders (src/main.rs lines 199-271) -/

/-- `make_footprint` (src/main.rs lines 199-215): header uuid first, then
name and description; polygon lines are appended only for a non-empty
collection (line 210), then the closing parenthesis. -/
def make_footprint (layer name description : List Char) (align : Align)
    (polylines : List Polyline) (uuids : Nat → List Char) :
    Option (List (List Char)) :=
  let head := [chars "(footprint " ++ uuids 0,
               chars " (name \"" ++ name ++ chars "\")",
               chars " (description \"" ++ description ++ chars "\")"]
  if polylines = [] then Option.some (head ++ [chars ")"])
  else
    match make_polygon layer align polylines (fun k => uuids (k + 1)) with
    | Option.none => Option.none
    | Option.some P => Option.some (head ++ P.lines ++ [chars ")"])

/-- The optional `(category ...)` line (src/main.rs lines 239-241). -/
def categoryLines : Option (List Char) → List (List Char)
  | Option.some u => [chars " (category " ++ u ++ chars ")"]
  | Option.none => []

/-- `make_symbol` (src/main.rs lines 217-271).  Parameter order matches the
Rust signature: `uuid, name, description, keywords, author, version,
uuid_cmpcat, polylines`.  The polygon is always generated with layer
`sym_outlines` and `Align::Center` (line 244).  `now` models `Utc::now()`;
the uuid stream is consumed by the polygon loop (one uuid per polyline) and
then by the two text labels. -/
def make_symbol (uuid name description keywords author version : List Char)
    (uuid_cmpcat : Option (List Char)) (polylines : List Polyline)
    (now : List Char) (uuids : Nat → List Char) : Option (List (List Char)) :=
  match make_polygon (chars "sym_outlines") Align.center polylines uuids with
  | Option.none => Option.none
  | Option.some polygon =>
      Option.some
        ((chars "(librepcb_symbol " ++ uuid) ::
         (chars " (name \"" ++ name ++ chars "\")") ::
         (chars " (description \"" ++ description ++ chars "\")") ::
         (chars " (keywords \"" ++ keywords ++ chars "\")") ::
         (chars " (author \"" ++ author ++ chars "\")") ::
         (chars " (version \"" ++ version ++ chars "\")") ::
         (chars " (created " ++ now ++ chars ")") ::
         chars " (deprecated false)" ::
         (categoryLines uuid_cmpcat ++
          polygon.lines ++
          [chars " (text " ++ uuids polylines.length ++
             chars " (layer sym_values) (value \"\x7b\x7bVALUE\x7d\x7d\")",
           chars "  (align center top) (height 2.5) (position 0.0 " ++
             format_float (polygon.transformed_bounds.y_min - 1.27) ++
             chars ") (rotation 0.0)",
           chars " )",
           chars " (text " ++ uuids (polylines.length + 1) ++
             chars " (layer sym_names) (value \"\x7b\x7bNAME\x7d\x7d\")",
           chars "  (align center bottom) (height 2.5) (position 0.0 " ++
             format_float (polygon.transformed_bounds.y_max + 1.27) ++
             chars ") (rotation 0.0)",
           chars " )",
           chars ")"]))

/-- The `make_symbol` invocation in `main` (src/main.rs lines 438-447): the
arguments are passed positionally as `(name, description, author, keywords,
version)`, while `make_symbol`'s parameters are ordered `(name, description,
keywords, author, version)` — so the caller's author value is bound to the
`keywords` parameter and the caller's keywords value to the `author`
parameter.  The same positional order is used for the component, package and
device invocations (src/main.rs lines 451-487). -/
def mainSymbol (uuid_sym name description author keywords version : List Char)
    (uuid_cmpcat : Option (List Char)) (polylines : List Polyline)
    (now : List Char) (uuids : Nat → List Char) : Option (List (List Char)) :=
  make_symbol uuid_sym name description author keywords version uuid_cmpcat
    polylines now uuids

/-- Textual test for a text-label header line: the first seven characters
are `" (text "`. -/
def isTextLine (l : List Char) : Bool := l.take 7 == chars " (text "

/-- Textual test for a polygon block header line inside a footprint: the
first three characters are `" (p"`. -/
def isPolygonStart (l : List Char) : Bool := l.take 3 == chars " (p"

/-! ### Evaluation lemmas for the float formatter -/

theorem fmt3mag_eval (q : ℚ) (m : ℤ) (h : roundTE (q * 1000) = m) :
    fmt3mag q = natRepr (m.toNat / 1000) ++ '.' :: pad3 (m.toNat % 1000) := by
  rw [fmt3mag, h]

theorem fmt3_eval_nonneg (q : ℚ) (m : ℤ) (h0 : ¬ q < 0) (h : roundTE (q * 1000) = m) :
    fmt3 q = natRepr (m.toNat / 1000) ++ '.' :: pad3 (m.toNat % 1000) := by
  rw [fmt3, if_neg h0, fmt3mag_eval q m h]

theorem fmt3_eval_neg (q : ℚ) (m : ℤ) (h0 : q < 0) (h : roundTE (-q * 1000) = m) :
    fmt3 q = '-' :: (natRepr (m.toNat / 1000) ++ '.' :: pad3 (m.toNat % 1000)) := by
  rw [fmt3, if_pos h0, fmt3mag_eval (-q) m h]

theorem fmtY_eval_nonneg (t : ℚ) (m : ℤ) (h0 : 0 ≤ t) (h : roundTE (t * 1000) = m) :
    fmtY t = '-' :: (natRepr (m.toNat / 1000) ++ '.' :: pad3 (m.toNat % 1000)) := by
  rw [fmtY, if_pos h0, fmt3mag_eval t m h]

theorem fmtY_eval_neg (t : ℚ) (m : ℤ) (h0 : ¬ 0 ≤ t) (h : roundTE (-t * 1000) = m) :
    fmtY t = natRepr (m.toNat / 1000) ++ '.' :: pad3 (m.toNat % 1000) := by
  rw [fmtY, if_neg h0, fmt3mag_eval (-t) m h]

theorem format_float_eval (q : ℚ) (h0 : ¬ q = 0) :
    format_float q = stripZeros (fmt3 q) := by
  rw [format_float, if_neg h0]

theorem format_float_m127 : format_float (-1.27 : ℚ) = chars "-1.27" := by
  rw [format_float_eval _ (by norm_num),
    fmt3_eval_neg _ 1270 (by norm_num) (by norm_num [roundTE])]
  decide

theorem format_float_127 : format_float (1.27 : ℚ) = chars "1.27" := by
  rw [format_float_eval _ (by norm_num),
    fmt3_eval_nonneg _ 1270 (by norm_num) (by norm_num [roundTE])]
  decide

theorem format_float_seven : format_float (7 : ℚ) = chars "7.0" := by
  rw [format_float_eval _ (by norm_num),
    fmt3_eval_nonneg _ 7000 (by norm_num) (by norm_num [roundTE])]
  decide

/-! ### Structure of the formatter output -/

theorem natDigitChar_lt10_ne_dot : ∀ k < 10, natDigitChar k ≠ '.' := by decide

theorem mem_natReprGo (fuel : Nat) : ∀ (n : Nat) (acc : List Char) (c : Char),
    c ∈ natReprGo fuel n acc → c ∈ acc ∨ ∃ k, k < 10 ∧ c = natDigitChar k := by
  induction fuel with
  | zero => intro n acc c hc; exact Or.inl hc
  | succ fuel ih =>
    intro n acc c hc
    rw [natReprGo] at hc
    split at hc
    · exact Or.inl hc
    · rcases ih (n / 10) _ _ hc with h1 | h1
      · rcases List.mem_cons.1 h1 with h2 | h2
        · exact Or.inr ⟨n % 10, Nat.mod_lt _ (by omega), h2⟩
        · exact Or.inl h2
      · exact Or.inr h1

theorem natRepr_no_dot (n : Nat) : '.' ∉ natRepr n := by
  intro hmem
  rw [natRepr] at hmem
  split at hmem
  · simp [chars] at hmem
  · rcases mem_natReprGo n n [] '.' hmem with h1 | ⟨k, hk, hc⟩
    · simp at h1
    · exact natDigitChar_lt10_ne_dot k hk hc.symm

theorem pad3_shape (n : Nat) (h : n < 1000) : ∃ a b c, pad3 n = [a, b, c] ∧
    a ≠ '.' ∧ b ≠ '.' ∧ c ≠ '.' := by
  refine ⟨_, _, _, rfl, ?_, ?_, ?_⟩
  · exact natDigitChar_lt10_ne_dot (n / 100) (by omega)
  · exact natDigitChar_lt10_ne_dot (n / 10 % 10) (Nat.mod_lt _ (by omega))
  · exact natDigitChar_lt10_ne_dot (n % 10) (Nat.mod_lt _ (by omega))

theorem fmt3mag_shape (p : ℚ) : ∃ xs a b c, fmt3mag p = xs ++ ['.', a, b, c] ∧
    '.' ∉ xs ∧ a ≠ '.' ∧ b ≠ '.' ∧ c ≠ '.' := by
  rw [fmt3mag]
  rcases pad3_shape ((roundTE (p * 1000)).toNat % 1000) (Nat.mod_lt _ (by omega)) with
    ⟨a, b, c, hpad, ha, hb, hc⟩
  exact ⟨natRepr ((roundTE (p * 1000)).toNat / 1000), a, b, c, by rw [hpad],
    natRepr_no_dot _, ha, hb, hc⟩

theorem fmt3_shape (q : ℚ) : ∃ xs a b c, fmt3 q = xs ++ ['.', a, b, c] ∧
    '.' ∉ xs ∧ a ≠ '.' ∧ b ≠ '.' ∧ c ≠ '.' := by
  rw [fmt3]
  split
  · rcases fmt3mag_shape (-q) with ⟨xs, a, b, c, h, hxs, ha, hb, hc⟩
    refine ⟨'-' :: xs, a, b, c, by rw [h]; rfl, ?_, ha, hb, hc⟩
    intro hd
    rcases List.mem_cons.1 hd with h2 | h2
    · exact absurd h2 (by decide)
    · exact hxs h2
  · exact fmt3mag_shape q

/-! ### List helper lemmas -/

theorem getLast?_app4 (xs : List Char) (a b c d : Char) :
    (xs ++ [a, b, c, d]).getLast? = some d := by
  have h : xs ++ [a, b, c, d] = (xs ++ [a, b, c]) ++ [d] := by simp
  rw [h, List.getLast?_concat]

theorem getLast?_app3 (xs : List Char) (a b c : Char) :
    (xs ++ [a, b, c]).getLast? = some c := by
  have h : xs ++ [a, b, c] = (xs ++ [a, b]) ++ [c] := by simp
  rw [h, List.getLast?_concat]

theorem getLast?_app2 (xs : List Char) (a b : Char) :
    (xs ++ [a, b]).getLast? = some b := by
  have h : xs ++ [a, b] = (xs ++ [a]) ++ [b] := by simp
  rw [h, List.getLast?_concat]

theorem rev1_app4 (xs : List Char) (a b c d : Char) :
    (xs ++ [a, b, c, d]).reverse[1]? = some c := by
  rw [List.reverse_append]
  rw [List.getElem?_append_left (by simp)]
  rfl

theorem dropLast_app4 (xs : List Char) (a b c d : Char) :
    (xs ++ [a, b, c, d]).dropLast = xs ++ [a, b, c] := by
  have h : xs ++ [a, b, c, d] = (xs ++ [a, b, c]) ++ [d] := by simp
  rw [h, List.dropLast_concat]

theorem dropLast_app3 (xs : List Char) (a b c : Char) :
    (xs ++ [a, b, c]).dropLast = xs ++ [a, b] := by
  have h : xs ++ [a, b, c] = (xs ++ [a, b]) ++ [c] := by simp
  rw [h, List.dropLast_concat]

theorem dropLast_app2 (xs : List Char) (a b : Char) :
    (xs ++ [a, b]).dropLast = xs ++ [a] := by
  have h : xs ++ [a, b] = (xs ++ [a]) ++ [b] := by simp
  rw [h, List.dropLast_concat]

theorem count_dot_app (xs : List Char) (ys : List Char) (hxs : '.' ∉ xs)
    (hys : ∀ d ∈ ys, d ≠ '.') : (xs ++ '.' :: ys).count '.' = 1 := by
  rw [List.count_append]
  rw [List.count_eq_zero.2 hxs]
  rw [List.count_cons]
  rw [List.count_eq_zero.2 (fun h => hys '.' h rfl)]
  simp

/-! ### Trailing-zero stripping case analysis -/

theorem stripZeros_shape (xs : List Char) (a b c : Char) :
    (c ≠ '0' ∧ stripZeros (xs ++ ['.', a, b, c]) = xs ++ ['.', a, b, c]) ∨
    (c = '0' ∧ b ≠ '0' ∧ stripZeros (xs ++ ['.', a, b, c]) = xs ++ ['.', a, b]) ∨
    (c = '0' ∧ b = '0' ∧ stripZeros (xs ++ ['.', a, b, c]) = xs ++ ['.', a]) := by
  by_cases hc : c = '0'
  · by_cases hb : b = '0'
    · refine Or.inr (Or.inr ⟨hc, hb, ?_⟩)
      rw [stripZeros, if_pos, if_pos]
      · rw [dropLast_app4, dropLast_app3]
      · rw [rev1_app4, hb]
      · rw [getLast?_app4, hc]
    · refine Or.inr (Or.inl ⟨hc, hb, ?_⟩)
      rw [stripZeros, if_pos, if_neg]
      · rw [dropLast_app4]
      · rw [rev1_app4]; simp [hb]
      · rw [getLast?_app4, hc]
  · refine Or.inl ⟨hc, ?_⟩
    rw [stripZeros, if_neg]
    rw [getLast?_app4]
    simp [hc]

/-- The canonical-form invariants of `format_float`: exactly one decimal
point, never ending in a point, a trailing zero only as the single kept
fractional digit. -/
theorem format_float_props (q : ℚ) :
    (format_float q).count '.' = 1 ∧ (format_float q).getLast? ≠ some '.' ∧
    ((format_float q).getLast? = some '0' →
      (format_float q).dropLast.getLast? = some '.') := by
  by_cases h0 : q = 0
  · subst h0
    rw [format_float, if_pos rfl]
    exact ⟨by decide, by decide, fun _ => by decide⟩
  · rw [format_float, if_neg h0]
    rcases fmt3_shape q with ⟨xs, a, b, c, hq, hxs, ha, hb, hc⟩
    rw [hq]
    rcases stripZeros_shape xs a b c with ⟨hc0, hs⟩ | ⟨hc0, hb0, hs⟩ | ⟨hc0, hb0, hs⟩ <;>
      rw [hs]
    · refine ⟨count_dot_app xs [a, b, c] hxs ?_, ?_, ?_⟩
      · intro d hd
        simp only [List.mem_cons, List.not_mem_nil, or_false] at hd
        rcases hd with rfl | rfl | rfl
        · exact ha
        · exact hb
        · exact hc
      · rw [getLast?_app4]; simp [hc]
      · rw [getLast?_app4]
        intro h
        exact absurd (Option.some.inj h) hc0
    · refine ⟨count_dot_app xs [a, b] hxs ?_, ?_, ?_⟩
      · intro d hd
        simp only [List.mem_cons, List.not_mem_nil, or_false] at hd
        rcases hd with rfl | rfl
        · exact ha
        · exact hb
      · rw [getLast?_app3]; simp [hb]
      · rw [getLast?_app3]
        intro h
        exact absurd (Option.some.inj h) hb0
    · refine ⟨count_dot_app xs [a] hxs ?_, ?_, ?_⟩
      · intro d hd
        simp only [List.mem_cons, List.not_mem_nil, or_false] at hd
        rcases hd with rfl
        exact ha
      · rw [getLast?_app2]; simp [ha]
      · intro h
        rw [dropLast_app2, List.getLast?_concat]

/-- C4: the Float Formatter meets its four test vectors (`-0.0` and `0.0`
are the same rational, `0`) and, for every input, emits exactly one decimal
point, never ends in `'.'`, and keeps a trailing zero only as the single
minimal fractional digit. -/
theorem c4_format_float :
    format_float (0 : ℚ) = chars "0.0" ∧
    format_float (3.14456 : ℚ) = chars "3.145" ∧
    format_float (-7 : ℚ) = chars "-7.0" ∧
    format_float (0.4 : ℚ) = chars "0.4" ∧
    ∀ q : ℚ, (format_float q).count '.' = 1 ∧
      (format_float q).getLast? ≠ some '.' ∧
      ((format_float q).getLast? = some '0' →
        (format_float q).dropLast.getLast? = some '.') := by
  refine ⟨by rw [format_float, if_pos rfl], ?_, ?_, ?_, format_float_props⟩
  · rw [format_float_eval _ (by norm_num),
      fmt3_eval_nonneg _ 3145 (by norm_num) (by norm_num [roundTE])]
    decide
  · rw [format_float_eval _ (by norm_num),
      fmt3_eval_neg _ 7000 (by norm_num) (by norm_num [roundTE])]
    decide
  · rw [format_float_eval _ (by norm_num),
      fmt3_eval_nonneg _ 400 (by norm_num) (by norm_num [roundTE])]
    decide

/-- Witness for C4 at the concrete input `7`: the hypothesis of the
minimality clause holds (`"7.0"` ends in `'0'`) and the clause places the
decimal point right before it. -/
theorem c4_format_float_witness :
    (format_float (7 : ℚ)).getLast? = some '0' ∧
    (format_float (7 : ℚ)).dropLast.getLast? = some '.' := by
  constructor
  · rw [format_float_seven]; decide
  · exact (c4_format_float.2.2.2.2 7).2.2 (by rw [format_float_seven]; decide)

/-! ### Bounds fold, emitters and builders: theorems -/

theorem foldl_boundsStep_le (l : List Point) (b : BBox) :
    (l.foldl boundsStep b).x_min ≤ b.x_min ∧ b.x_max ≤ (l.foldl boundsStep b).x_max ∧
    (l.foldl boundsStep b).y_min ≤ b.y_min ∧ b.y_max ≤ (l.foldl boundsStep b).y_max := by
  induction l generalizing b with
  | nil => simp
  | cons p t ih =>
    simp only [List.foldl_cons]
    rcases ih (boundsStep b p) with ⟨h1, h2, h3, h4⟩
    exact ⟨le_trans h1 (min_le_right _ _), le_trans (le_max_right _ _) h2,
           le_trans h3 (min_le_right _ _), le_trans (le_max_right _ _) h4⟩

theorem foldl_boundsStep_mem (l : List Point) (b : BBox) :
    ∀ p ∈ l, (l.foldl boundsStep b).x_min ≤ p.x ∧ p.x ≤ (l.foldl boundsStep b).x_max ∧
      (l.foldl boundsStep b).y_min ≤ p.y ∧ p.y ≤ (l.foldl boundsStep b).y_max := by
  induction l generalizing b with
  | nil => intro p hp; simp at hp
  | cons q t ih =>
    intro p hp
    simp only [List.foldl_cons]
    rcases List.mem_cons.1 hp with rfl | hp
    · rcases foldl_boundsStep_le t (boundsStep b p) with ⟨h1, h2, h3, h4⟩
      exact ⟨le_trans h1 (min_le_left _ _), le_trans (le_max_left _ _) h2,
             le_trans h3 (min_le_left _ _), le_trans (le_max_left _ _) h4⟩
    · exact ih (boundsStep b q) p hp

theorem foldl_boundsStep_attain (l : List Point) (b : BBox) :
    ((l.foldl boundsStep b).x_min = b.x_min ∨ ∃ p ∈ l, (l.foldl boundsStep b).x_min = p.x) ∧
    ((l.foldl boundsStep b).x_max = b.x_max ∨ ∃ p ∈ l, (l.foldl boundsStep b).x_max = p.x) ∧
    ((l.foldl boundsStep b).y_min = b.y_min ∨ ∃ p ∈ l, (l.foldl boundsStep b).y_min = p.y) ∧
    ((l.foldl boundsStep b).y_max = b.y_max ∨ ∃ p ∈ l, (l.foldl boundsStep b).y_max = p.y) := by
  induction l generalizing b with
  | nil => simp
  | cons q t ih =>
    simp only [List.foldl_cons]
    rcases ih (boundsStep b q) with ⟨h1, h2, h3, h4⟩
    refine ⟨?_, ?_, ?_, ?_⟩
    · rcases h1 with h | ⟨p, hp, h⟩
      · rcases min_cases q.x b.x_min with ⟨hm, _⟩ | ⟨hm, _⟩
        · exact Or.inr ⟨q, List.mem_cons_self _ _, by rw [h]; exact hm⟩
        · exact Or.inl (by rw [h]; exact hm)
      · exact Or.inr ⟨p, List.mem_cons_of_mem _ hp, h⟩
    · rcases h2 with h | ⟨p, hp, h⟩
      · rcases max_cases q.x b.x_max with ⟨hm, _⟩ | ⟨hm, _⟩
        · exact Or.inr ⟨q, List.mem_cons_self _ _, by rw [h]; exact hm⟩
        · exact Or.inl (by rw [h]; exact hm)
      · exact Or.inr ⟨p, List.mem_cons_of_mem _ hp, h⟩
    · rcases h3 with h | ⟨p, hp, h⟩
      · rcases min_cases q.y b.y_min with ⟨hm, _⟩ | ⟨hm, _⟩
        · exact Or.inr ⟨q, List.mem_cons_self _ _, by rw [h]; exact hm⟩
        · exact Or.inl (by rw [h]; exact hm)
      · exact Or.inr ⟨p, List.mem_cons_of_mem _ hp, h⟩
    · rcases h4 with h | ⟨p, hp, h⟩
      · rcases max_cases q.y b.y_max with ⟨hm, _⟩ | ⟨hm, _⟩
        · exact Or.inr ⟨q, List.mem_cons_self _ _, by rw [h]; exact hm⟩
        · exact Or.inl (by rw [h]; exact hm)
      · exact Or.inr ⟨p, List.mem_cons_of_mem _ hp, h⟩

theorem svgBounds_eq_foldl (p : Point) (ps : Polyline) (rest : List Polyline) :
    svgBounds ((p :: ps) :: rest) =
      Option.some ((((p :: ps) :: rest).flatten).foldl boundsStep
        { x_min := p.x, x_max := p.x, y_min := p.y, y_max := p.y }) := by
  rw [svgBounds, List.foldl_flatten]

/-- C7: for every polyline collection accepted by the bounds fold, every
point of every polyline lies within the computed box, each of the four
bounds is attained by some point, and the bounds of a single-point
collection collapse to a zero-area box. -/
theorem c7_bounds (polylines : List Polyline) (B : BBox)
    (h : svgBounds polylines = Option.some B) :
    (∀ pl ∈ polylines, ∀ p ∈ pl,
      B.x_min ≤ p.x ∧ p.x ≤ B.x_max ∧ B.y_min ≤ p.y ∧ p.y ≤ B.y_max) ∧
    (∃ pl ∈ polylines, ∃ p ∈ pl, p.x = B.x_min) ∧
    (∃ pl ∈ polylines, ∃ p ∈ pl, p.x = B.x_max) ∧
    (∃ pl ∈ polylines, ∃ p ∈ pl, p.y = B.y_min) ∧
    (∃ pl ∈ polylines, ∃ p ∈ pl, p.y = B.y_max) ∧
    (∀ p : Point, svgBounds [[p]] =
      Option.some { x_min := p.x, x_max := p.x, y_min := p.y, y_max := p.y }) := by
  have collapse : ∀ p : Point, svgBounds [[p]] =
      Option.some { x_min := p.x, x_max := p.x, y_min := p.y, y_max := p.y } := by
    intro p
    simp [svgBounds, boundsStep]
  match polylines, h with
  | (p :: ps) :: rest, h =>
    rw [svgBounds_eq_foldl] at h
    have hB := Option.some.inj h
    
    have hpmem : p ∈ (p :: ps) := List.mem_cons_self _ _
    have hplmem : (p :: ps) ∈ (p :: ps) :: rest := List.mem_cons_self _ _
    refine ⟨?_, ?_, ?_, ?_, ?_, collapse⟩
    · intro pl hpl q hq
      have hqf : q ∈ ((p :: ps) :: rest).flatten := List.mem_flatten.2 ⟨pl, hpl, hq⟩
      have h2 := foldl_boundsStep_mem (((p :: ps) :: rest).flatten) { x_min := p.x, x_max := p.x, y_min := p.y, y_max := p.y } q hqf
      rw [hB] at h2
      exact h2
    · rcases (foldl_boundsStep_attain (((p :: ps) :: rest).flatten) ({ x_min := p.x, x_max := p.x, y_min := p.y, y_max := p.y } : BBox)).1 with hx | ⟨q, hq, hx⟩
      · exact ⟨p :: ps, hplmem, p, hpmem, by rw [← hB, hx]⟩
      · rcases List.mem_flatten.1 hq with ⟨pl, hpl, hq2⟩
        exact ⟨pl, hpl, q, hq2, by rw [← hB, hx]⟩
    · rcases (foldl_boundsStep_attain (((p :: ps) :: rest).flatten) ({ x_min := p.x, x_max := p.x, y_min := p.y, y_max := p.y } : BBox)).2.1 with hx | ⟨q, hq, hx⟩
      · exact ⟨p :: ps, hplmem, p, hpmem, by rw [← hB, hx]⟩
      · rcases List.mem_flatten.1 hq with ⟨pl, hpl, hq2⟩
        exact ⟨pl, hpl, q, hq2, by rw [← hB, hx]⟩
    · rcases (foldl_boundsStep_attain (((p :: ps) :: rest).flatten) ({ x_min := p.x, x_max := p.x, y_min := p.y, y_max := p.y } : BBox)).2.2.1 with hx | ⟨q, hq, hx⟩
      · exact ⟨p :: ps, hplmem, p, hpmem, by rw [← hB, hx]⟩
      · rcases List.mem_flatten.1 hq with ⟨pl, hpl, hq2⟩
        exact ⟨pl, hpl, q, hq2, by rw [← hB, hx]⟩
    · rcases (foldl_boundsStep_attain (((p :: ps) :: rest).flatten) ({ x_min := p.x, x_max := p.x, y_min := p.y, y_max := p.y } : BBox)).2.2.2 with hx | ⟨q, hq, hx⟩
      · exact ⟨p :: ps, hplmem, p, hpmem, by rw [← hB, hx]⟩
      · rcases List.mem_flatten.1 hq with ⟨pl, hpl, hq2⟩
        exact ⟨pl, hpl, q, hq2, by rw [← hB, hx]⟩

theorem polylineLines_eq (u layer : List Char) (dx dy : ℚ) (pl : Polyline) (hne : ¬ pl = []) :
    polylineLines u layer dx dy pl =
      Option.some
        ((chars " (polygon \"" ++ u ++ chars "\" (layer " ++ layer ++ chars ")") ::
          styleLine (if isClosed pl then chars "0.0" else chars "0.2")
            (if isClosed pl then chars "true" else chars "false") ::
          (pl.map (fun p => vertexLine (p.x + dx) (p.y + dy)) ++ [chars " )"])) := by
  rw [polylineLines, if_neg hne]
  by_cases h : isClosed pl <;> simp [h]

/-- C2 counterexample: the closed polyline `[(0,0), (0,0)]` remains
classified closed after its duplicate trailing point is removed, because a
one-point polyline has first = last; the claim predicts it becomes open. -/
theorem c2_counterexample :
    isClosed [Point.mk 0 0, Point.mk 0 0] = true ∧
    [Point.mk 0 0, Point.mk 0 0].dropLast = [Point.mk 0 0] ∧
    isClosed [Point.mk 0 0] = true := by
  exact ⟨by decide, rfl, by decide⟩

/-- C2 (amended): a polyline is classified closed iff its first and last
points are exactly equal; a closed polyline is emitted with stroke width
`0.0` and fill `true`, an open one with `0.2` and `false`; and removing the
duplicate trailing point of a closed polyline of length at least two whose
first point differs from its second-to-last point makes it classified
open. -/
theorem c2_closedness (pl : Polyline) (hne : pl ≠ []) :
    (isClosed pl = true ↔ pl.head? = pl.getLast?) ∧
    (∀ uuid layer : List Char, ∀ dx dy : ℚ, ∃ hd rest,
      polylineLines uuid layer dx dy pl =
        Option.some (hd :: styleLine
          (if isClosed pl then chars "0.0" else chars "0.2")
          (if isClosed pl then chars "true" else chars "false") :: rest)) ∧
    (2 ≤ pl.length → isClosed pl = true → pl.head? ≠ pl.dropLast.getLast? →
      isClosed pl.dropLast = false) := by
  refine ⟨by simp [isClosed], ?_, ?_⟩
  · intro uuid layer dx dy
    exact ⟨_, _, polylineLines_eq uuid layer dx dy pl hne⟩
  · intro hlen _ hneq
    match pl, hlen with
    | a :: b :: t, _ =>
      have hdl : (a :: b :: t).dropLast = a :: (b :: t).dropLast := rfl
      rw [hdl]
      simp only [isClosed, decide_eq_false_iff_not]
      intro hcon
      apply hneq
      rw [List.head?_cons, hdl]
      exact hcon

/-- C9: the style line of every emitted polygon block splices one and the
same fill text into both the `fill` and the `grab_area` slot — `true` for a
closed polyline and `false` for an open one — so grab_area always equals
fill and is never set independently. -/
theorem c9_grab_area (uuid layer : List Char) (dx dy : ℚ) (pl : Polyline)
    (L : List (List Char)) (h : polylineLines uuid layer dx dy pl = Option.some L) :
    ∃ hd rest w f, L = hd :: (chars "  (width " ++ w ++ chars ") (fill " ++ f ++
        chars ") (grab_area " ++ f ++ chars ")") :: rest ∧
      (isClosed pl = true → w = chars "0.0" ∧ f = chars "true") ∧
      (isClosed pl = false → w = chars "0.2" ∧ f = chars "false") := by
  by_cases hne : pl = []
  · subst hne
    rw [polylineLines, if_pos rfl] at h
    cases h
  · rw [polylineLines_eq uuid layer dx dy pl hne] at h
    have hL := (Option.some.inj h).symm
    refine ⟨_, _, _, _, hL, ?_, ?_⟩
    · intro hc; rw [hc]; exact ⟨rfl, rfl⟩
    · intro hc; rw [hc]; exact ⟨rfl, rfl⟩

theorem svgBounds_total (polylines : List Polyline) (h0 : polylines ≠ [])
    (h1 : ∀ pl ∈ polylines, pl ≠ []) : ∃ B, svgBounds polylines = Option.some B := by
  match polylines, h0 with
  | pl0 :: rest, _ =>
    match pl0, h1 pl0 (List.mem_cons_self _ _) with
    | p :: ps, _ => exact ⟨_, rfl⟩

theorem polygonBody_total (layer : List Char) (dx dy : ℚ) (uuids : Nat → List Char)
    (polylines : List Polyline) (h : ∀ pl ∈ polylines, pl ≠ []) : ∀ k,
    ∃ ls, polygonBody layer dx dy uuids k polylines = Option.some ls := by
  induction polylines with
  | nil => intro k; exact ⟨[], rfl⟩
  | cons pl0 rest ih =>
    intro k
    rcases ih (fun pl hpl => h pl (List.mem_cons_of_mem _ hpl)) (k + 1) with ⟨ls2, h2⟩
    have hne := h pl0 (List.mem_cons_self _ _)
    rw [polygonBody, polylineLines_eq _ _ _ _ _ hne, h2]
    exact ⟨_, rfl⟩

theorem make_polygon_total (layer : List Char) (align : Align)
    (polylines : List Polyline) (uuids : Nat → List Char)
    (h1 : ∀ pl ∈ polylines, pl ≠ []) :
    ∃ P, make_polygon layer align polylines uuids = Option.some P := by
  by_cases h0 : polylines = []
  · subst h0; exact ⟨_, by rw [make_polygon, if_pos rfl]⟩
  · rcases svgBounds_total polylines h0 h1 with ⟨B, hB⟩
    rcases polygonBody_total layer (offset align B).1 (offset align B).2 uuids polylines h1 0
      with ⟨ls, hls⟩
    rw [make_polygon, if_neg h0, hB]
    simp only [hls]
    exact ⟨_, rfl⟩

theorem make_footprint_total (layer name description : List Char) (align : Align)
    (polylines : List Polyline) (uuids : Nat → List Char)
    (h1 : ∀ pl ∈ polylines, pl ≠ []) :
    ∃ L, make_footprint layer name description align polylines uuids = Option.some L := by
  by_cases h0 : polylines = []
  · subst h0; exact ⟨_, by rw [make_footprint, if_pos rfl]⟩
  · rcases make_polygon_total layer align polylines (fun k => uuids (k + 1)) h1 with ⟨P, hP⟩
    rw [make_footprint, if_neg h0, hP]
    exact ⟨_, rfl⟩

theorem make_symbol_total (uuid name description keywords author version : List Char)
    (uuid_cmpcat : Option (List Char)) (polylines : List Polyline)
    (now : List Char) (uuids : Nat → List Char)
    (h1 : ∀ pl ∈ polylines, pl ≠ []) :
    ∃ L, make_symbol uuid name description keywords author version uuid_cmpcat
      polylines now uuids = Option.some L := by
  rcases make_polygon_total (chars "sym_outlines") Align.center polylines uuids h1 with ⟨P, hP⟩
  rw [make_symbol.eq_def, hP]
  exact ⟨_, rfl⟩

theorem make_polygon_eq_of (layer : List Char) (align : Align)
    (polylines : List Polyline) (uuids : Nat → List Char) (B : BBox)
    (ls : List (List Char)) (h0 : ¬ polylines = [])
    (hB : svgBounds polylines = Option.some B)
    (hls : polygonBody layer (offset align B).1 (offset align B).2 uuids 0 polylines =
      Option.some ls) :
    make_polygon layer align polylines uuids =
      Option.some { lines := ls,
                    transformed_bounds := { y_min := B.y_min + (offset align B).2,
                                            y_max := B.y_max + (offset align B).2 } } := by
  rw [make_polygon, if_neg h0, hB]
  simp only [hls]

theorem make_polygon_inv (layer : List Char) (align : Align)
    (polylines : List Polyline) (uuids : Nat → List Char) (P : Polygon)
    (h0 : ¬ polylines = [])
    (h : make_polygon layer align polylines uuids = Option.some P) :
    ∃ B, svgBounds polylines = Option.some B ∧
      polygonBody layer (offset align B).1 (offset align B).2 uuids 0 polylines =
        Option.some P.lines ∧
      P.transformed_bounds = { y_min := B.y_min + (offset align B).2,
                               y_max := B.y_max + (offset align B).2 } := by
  cases hB : svgBounds polylines with
  | none =>
    rw [make_polygon, if_neg h0, hB] at h
    simp at h
  | some B =>
    cases hls : polygonBody layer (offset align B).1 (offset align B).2 uuids 0 polylines with
    | none =>
      rw [make_polygon, if_neg h0, hB] at h
      simp only [hls] at h
      exact Option.noConfusion h
    | some ls =>
      rw [make_polygon_eq_of layer align polylines uuids B ls h0 hB hls] at h
      have hP := (Option.some.inj h).symm
      exact ⟨B, rfl, by rw [hP]; exact hls, by rw [hP]⟩

theorem polygonBody_cons_inv (layer : List Char) (dx dy : ℚ) (uuids : Nat → List Char)
    (pl0 : Polyline) (rest : List Polyline) (k : Nat) (ls : List (List Char))
    (h : polygonBody layer dx dy uuids k (pl0 :: rest) = Option.some ls) :
    ∃ ls1 ls2, polylineLines (uuids k) layer dx dy pl0 = Option.some ls1 ∧
      polygonBody layer dx dy uuids (k + 1) rest = Option.some ls2 ∧
      ls = ls1 ++ ls2 := by
  rw [polygonBody] at h
  cases h1 : polylineLines (uuids k) layer dx dy pl0 with
  | none => rw [h1] at h; simp at h
  | some ls1 =>
    cases h2 : polygonBody layer dx dy uuids (k + 1) rest with
    | none => rw [h1, h2] at h; simp at h
    | some ls2 =>
      rw [h1, h2] at h
      exact ⟨ls1, ls2, rfl, rfl, (Option.some.inj h).symm⟩

theorem polygonBody_vertex_mem (layer : List Char) (dx dy : ℚ) (uuids : Nat → List Char)
    (polylines : List Polyline) :
    ∀ (k : Nat) (ls : List (List Char)),
      polygonBody layer dx dy uuids k polylines = Option.some ls →
      ∀ pl ∈ polylines, ∀ p ∈ pl, vertexLine (p.x + dx) (p.y + dy) ∈ ls := by
  induction polylines with
  | nil => intro k ls h pl hpl; simp at hpl
  | cons pl0 rest ih =>
    intro k ls h pl hpl p hp
    rcases polygonBody_cons_inv layer dx dy uuids pl0 rest k ls h with
      ⟨ls1, ls2, h1, h2, rfl⟩
    rcases List.mem_cons.1 hpl with rfl | hpl2
    · have hne : ¬ pl = [] := List.ne_nil_of_mem hp
      rw [polylineLines_eq _ _ _ _ _ hne] at h1
      have hls1 := (Option.some.inj h1).symm
      refine List.mem_append_left _ ?_
      rw [hls1]
      refine List.mem_cons_of_mem _ (List.mem_cons_of_mem _ ?_)
      exact List.mem_append_left _ (List.mem_map_of_mem _ hp)
    · exact List.mem_append_right _ (ih (k + 1) ls2 h2 pl hpl2 p hp)

theorem polygonBody_line_shape (layer : List Char) (dx dy : ℚ) (uuids : Nat → List Char)
    (polylines : List Polyline) :
    ∀ (k : Nat) (ls : List (List Char)),
      polygonBody layer dx dy uuids k polylines = Option.some ls →
      ∀ l ∈ ls, (∃ r, l = chars " (polygon \"" ++ r) ∨
        (∃ w f, l = styleLine w f) ∨
        (∃ pl, pl ∈ polylines ∧ ∃ p, p ∈ pl ∧ l = vertexLine (p.x + dx) (p.y + dy)) ∨
        l = chars " )" := by
  induction polylines with
  | nil =>
    intro k ls h l hl
    rw [polygonBody] at h
    rw [← Option.some.inj h] at hl
    simp at hl
  | cons pl0 rest ih =>
    intro k ls h l hl
    rcases polygonBody_cons_inv layer dx dy uuids pl0 rest k ls h with
      ⟨ls1, ls2, h1, h2, rfl⟩
    rcases List.mem_append.1 hl with hl1 | hl2
    · have hne : ¬ pl0 = [] := by
        intro hcon
        rw [hcon, polylineLines, if_pos rfl] at h1
        exact Option.noConfusion h1
      rw [polylineLines_eq _ _ _ _ _ hne] at h1
      rw [← Option.some.inj h1] at hl1
      rcases List.mem_cons.1 hl1 with rfl | hl1
      · exact Or.inl ⟨uuids k ++ chars "\" (layer " ++ layer ++ chars ")", by simp⟩
      rcases List.mem_cons.1 hl1 with rfl | hl1
      · exact Or.inr (Or.inl ⟨_, _, rfl⟩)
      rcases List.mem_append.1 hl1 with hl1 | hl1
      · rcases List.mem_map.1 hl1 with ⟨p, hp, rfl⟩
        exact Or.inr (Or.inr (Or.inl ⟨pl0, List.mem_cons_self _ _, p, hp, rfl⟩))
      · rcases List.mem_singleton.1 hl1 with rfl
        exact Or.inr (Or.inr (Or.inr rfl))
    · rcases ih (k + 1) ls2 h2 l hl2 with h | h | ⟨pl, hpl, hrest⟩ | h
      · exact Or.inl h
      · exact Or.inr (Or.inl h)
      · exact Or.inr (Or.inr (Or.inl ⟨pl, List.mem_cons_of_mem _ hpl, hrest⟩))
      · exact Or.inr (Or.inr (Or.inr h))

theorem take_app_of_ge (pre rest : List Char) (n : Nat) (h : n ≤ pre.length) :
    (pre ++ rest).take n = pre.take n := by
  rw [List.take_append_eq_append_take, Nat.sub_eq_zero_of_le h, List.take_zero,
    List.append_nil]

theorem isTextLine_pre_false (s : String) (rest : List Char)
    (h7 : 7 ≤ (chars s).length) (hne : (chars s).take 7 ≠ chars " (text ") :
    isTextLine (chars s ++ rest) = false := by
  rw [isTextLine, take_app_of_ge _ _ _ h7]
  exact beq_eq_false_iff_ne.2 hne

theorem isTextLine_text (rest : List Char) :
    isTextLine (chars " (text " ++ rest) = true := by
  rw [isTextLine, List.take_left' (by decide)]
  simp

theorem make_symbol_inv (uuid name description keywords author version : List Char)
    (uuid_cmpcat : Option (List Char)) (polylines : List Polyline)
    (now : List Char) (uuids : Nat → List Char) (L : List (List Char))
    (h : make_symbol uuid name description keywords author version uuid_cmpcat
      polylines now uuids = Option.some L) :
    ∃ P, make_polygon (chars "sym_outlines") Align.center polylines uuids =
        Option.some P ∧
      L = (chars "(librepcb_symbol " ++ uuid) ::
         (chars " (name \"" ++ name ++ chars "\")") ::
         (chars " (description \"" ++ description ++ chars "\")") ::
         (chars " (keywords \"" ++ keywords ++ chars "\")") ::
         (chars " (author \"" ++ author ++ chars "\")") ::
         (chars " (version \"" ++ version ++ chars "\")") ::
         (chars " (created " ++ now ++ chars ")") ::
         chars " (deprecated false)" ::
         (categoryLines uuid_cmpcat ++
          P.lines ++
          [chars " (text " ++ uuids polylines.length ++
             chars " (layer sym_values) (value \"\x7b\x7bVALUE\x7d\x7d\")",
           chars "  (align center top) (height 2.5) (position 0.0 " ++
             format_float (P.transformed_bounds.y_min - 1.27) ++
             chars ") (rotation 0.0)",
           chars " )",
           chars " (text " ++ uuids (polylines.length + 1) ++
             chars " (layer sym_names) (value \"\x7b\x7bNAME\x7d\x7d\")",
           chars "  (align center bottom) (height 2.5) (position 0.0 " ++
             format_float (P.transformed_bounds.y_max + 1.27) ++
             chars ") (rotation 0.0)",
           chars " )",
           chars ")"]) := by
  cases hP : make_polygon (chars "sym_outlines") Align.center polylines uuids with
  | none =>
    rw [make_symbol.eq_def, hP] at h
    exact Option.noConfusion h
  | some P =>
    rw [make_symbol.eq_def, hP] at h
    exact ⟨P, rfl, (Option.some.inj h).symm⟩

theorem countP_isTextLine_polygon (layer : List Char) (dx dy : ℚ)
    (uuids : Nat → List Char) (polylines : List Polyline) (k : Nat)
    (ls : List (List Char))
    (h : polygonBody layer dx dy uuids k polylines = Option.some ls) :
    ls.countP isTextLine = 0 := by
  rw [List.countP_eq_zero]
  intro l hl
  rcases polygonBody_line_shape layer dx dy uuids polylines k ls h l hl with
    ⟨r, rfl⟩ | ⟨w, f, rfl⟩ | ⟨pl, hpl, p, hp, rfl⟩ | rfl
  · simp [isTextLine_pre_false " (polygon \"" r (by decide) (by decide)]
  · have hx := isTextLine_pre_false "  (width "
      (w ++ chars ") (fill " ++ f ++ chars ") (grab_area " ++ f ++ chars ")")
      (by decide) (by decide)
    rw [styleLine]
    simp only [List.append_assoc] at hx ⊢
    simp [hx]
  · have hx := isTextLine_pre_false "  (vertex (position "
      (fmt3 (p.x + dx) ++ [' '] ++ fmtY (p.y + dy) ++ chars ") (angle 0.0))")
      (by decide) (by decide)
    rw [vertexLine]
    simp only [List.append_assoc, List.singleton_append] at hx ⊢
    simp only [hx]
    decide
  · decide

theorem countP_isTextLine_category (c : Option (List Char)) :
    (categoryLines c).countP isTextLine = 0 := by
  cases c with
  | none => rfl
  | some u =>
    rw [categoryLines]
    simp only [List.countP_cons, List.countP_nil, List.append_assoc]
    simp [isTextLine_pre_false " (category " (u ++ chars ")") (by decide) (by decide)]

/-- C6: the symbol builder emits its polygon group with layer sym_outlines
and alignment forced to Center, and exactly two text labels with the
specified positions. -/
theorem c6_symbol_labels (uuid name description keywords author version : List Char)
    (uuid_cmpcat : Option (List Char)) (polylines : List Polyline)
    (now : List Char) (uuids : Nat → List Char) (L : List (List Char))
    (h : make_symbol uuid name description keywords author version uuid_cmpcat
      polylines now uuids = Option.some L) :
    ∃ P, make_polygon (chars "sym_outlines") Align.center polylines uuids =
        Option.some P ∧
      (∃ pre post, L = pre ++ P.lines ++ post) ∧
      L.countP isTextLine = 2 ∧
      (chars "  (align center top) (height 2.5) (position 0.0 " ++
        format_float (P.transformed_bounds.y_min - 1.27) ++
        chars ") (rotation 0.0)") ∈ L ∧
      (chars "  (align center bottom) (height 2.5) (position 0.0 " ++
        format_float (P.transformed_bounds.y_max + 1.27) ++
        chars ") (rotation 0.0)") ∈ L := by
  rcases make_symbol_inv uuid name description keywords author version uuid_cmpcat
    polylines now uuids L h with ⟨P, hP, hL⟩
  have hP0 : P.lines.countP isTextLine = 0 := by
    by_cases h0 : polylines = []
    · subst h0
      rw [make_polygon, if_pos rfl] at hP
      have hPe := (Option.some.inj hP).symm
      rw [hPe]
      rfl
    · rcases make_polygon_inv _ _ _ _ _ h0 hP with ⟨B, hB, hbody, htb⟩
      exact countP_isTextLine_polygon _ _ _ _ _ _ _ hbody
  have he1 : isTextLine (chars "(librepcb_symbol " ++ uuid) = false :=
    isTextLine_pre_false _ _ (by decide) (by decide)
  have he2 : isTextLine (chars " (name \"" ++ (name ++ chars "\")")) = false :=
    isTextLine_pre_false _ _ (by decide) (by decide)
  have he3 : isTextLine (chars " (description \"" ++ (description ++ chars "\")")) = false :=
    isTextLine_pre_false _ _ (by decide) (by decide)
  have he4 : isTextLine (chars " (keywords \"" ++ (keywords ++ chars "\")")) = false :=
    isTextLine_pre_false _ _ (by decide) (by decide)
  have he5 : isTextLine (chars " (author \"" ++ (author ++ chars "\")")) = false :=
    isTextLine_pre_false _ _ (by decide) (by decide)
  have he6 : isTextLine (chars " (version \"" ++ (version ++ chars "\")")) = false :=
    isTextLine_pre_false _ _ (by decide) (by decide)
  have he7 : isTextLine (chars " (created " ++ (now ++ chars ")")) = false :=
    isTextLine_pre_false _ _ (by decide) (by decide)
  have he8 : isTextLine (chars " (deprecated false)") = false := by decide
  have ht1 : isTextLine (chars " (text " ++ (uuids polylines.length ++
      chars " (layer sym_values) (value \"\x7b\x7bVALUE\x7d\x7d\")")) = true :=
    isTextLine_text _
  have ht2 : isTextLine (chars " (text " ++ (uuids (polylines.length + 1) ++
      chars " (layer sym_names) (value \"\x7b\x7bNAME\x7d\x7d\")")) = true :=
    isTextLine_text _
  have hq1 : isTextLine (chars "  (align center top) (height 2.5) (position 0.0 " ++
      (format_float (P.transformed_bounds.y_min - 1.27) ++ chars ") (rotation 0.0)")) = false :=
    isTextLine_pre_false _ _ (by decide) (by decide)
  have hq2 : isTextLine (chars "  (align center bottom) (height 2.5) (position 0.0 " ++
      (format_float (P.transformed_bounds.y_max + 1.27) ++ chars ") (rotation 0.0)")) = false :=
    isTextLine_pre_false _ _ (by decide) (by decide)
  have hc1 : isTextLine (chars " )") = false := by decide
  have hcp : isTextLine (chars ")") = false := by decide
  have hcat := countP_isTextLine_category uuid_cmpcat
  refine ⟨P, hP, ?_, ?_, ?_, ?_⟩
  · refine ⟨(chars "(librepcb_symbol " ++ uuid) ::
      (chars " (name \"" ++ name ++ chars "\")") ::
      (chars " (description \"" ++ description ++ chars "\")") ::
      (chars " (keywords \"" ++ keywords ++ chars "\")") ::
      (chars " (author \"" ++ author ++ chars "\")") ::
      (chars " (version \"" ++ version ++ chars "\")") ::
      (chars " (created " ++ now ++ chars ")") ::
      chars " (deprecated false)" :: categoryLines uuid_cmpcat,
      [chars " (text " ++ uuids polylines.length ++
         chars " (layer sym_values) (value \"\x7b\x7bVALUE\x7d\x7d\")",
       chars "  (align center top) (height 2.5) (position 0.0 " ++
         format_float (P.transformed_bounds.y_min - 1.27) ++ chars ") (rotation 0.0)",
       chars " )",
       chars " (text " ++ uuids (polylines.length + 1) ++
         chars " (layer sym_names) (value \"\x7b\x7bNAME\x7d\x7d\")",
       chars "  (align center bottom) (height 2.5) (position 0.0 " ++
         format_float (P.transformed_bounds.y_max + 1.27) ++ chars ") (rotation 0.0)",
       chars " )",
       chars ")"], ?_⟩
    rw [hL]
    simp [List.append_assoc]
  · rw [hL]
    simp only [List.countP_cons, List.countP_append, List.append_assoc, List.countP_nil,
      he1, he2, he3, he4, he5, he6, he7, he8, ht1, ht2, hq1, hq2, hc1, hcp, hcat, hP0]
    norm_num
  · rw [hL]
    simp
  · rw [hL]
    simp

theorem svgBounds_c1ex :
    svgBounds [[Point.mk 0 0, Point.mk 2 2], [Point.mk 4 4]] =
      Option.some { x_min := 0, x_max := 4, y_min := 0, y_max := 4 } := by
  rw [svgBounds]
  norm_num [boundsStep, min_def, max_def]

theorem offset_c1ex :
    offset Align.center { x_min := 0, x_max := 4, y_min := 0, y_max := 4 } =
      ((-2 : ℚ), (-2 : ℚ)) := by
  rw [offset]
  norm_num

theorem vertexLine_c1ex :
    vertexLine ((0 : ℚ) + -2) ((0 : ℚ) + -2) =
      chars "  (vertex (position -2.000 2.000) (angle 0.0))" := by
  have h1 : (0 : ℚ) + -2 = -2 := by norm_num
  rw [h1, vertexLine, fmt3_eval_neg _ 2000 (by norm_num) (by norm_num [roundTE]),
    fmtY_eval_neg _ 2000 (by norm_num) (by norm_num [roundTE])]
  decide

/-- C1: for every collection accepted by the bounds fold, the alignment
offset is `(0,0)` for None, `(-x_min-(x_max-x_min)/2, -y_min-(y_max-y_min)/2)`
for Center, `(-x_min, -y_min)` for TopLeft and `(-x_min, -y_max)` for
BottomLeft, and every source point `(x, y)` is emitted as the vertex line
for `(x+dx, -(y+dy))`; concretely, a collection with bounding box
`(0,0)-(4,4)` under Center alignment gets offset `(-2,-2)` and the first
point `(0,0)` of its open polyline is emitted as `x=-2.000, y=2.000`. -/
theorem c1_offsets_and_vertices :
    (∀ (polylines : List Polyline) (B : BBox), svgBounds polylines = Option.some B →
      offset Align.none B = (0, 0) ∧
      offset Align.center B = (-B.x_min - (B.x_max - B.x_min) / 2,
                               -B.y_min - (B.y_max - B.y_min) / 2) ∧
      offset Align.topLeft B = (-B.x_min, -B.y_min) ∧
      offset Align.bottomLeft B = (-B.x_min, -B.y_max) ∧
      ∀ (layer : List Char) (align : Align) (uuids : Nat → List Char) (P : Polygon),
        make_polygon layer align polylines uuids = Option.some P →
        ∀ pl ∈ polylines, ∀ p ∈ pl,
          vertexLine (p.x + (offset align B).1) (p.y + (offset align B).2) ∈ P.lines) ∧
    (svgBounds [[Point.mk 0 0, Point.mk 2 2], [Point.mk 4 4]] =
        Option.some { x_min := 0, x_max := 4, y_min := 0, y_max := 4 } ∧
     offset Align.center { x_min := 0, x_max := 4, y_min := 0, y_max := 4 } =
       ((-2 : ℚ), (-2 : ℚ)) ∧
     ∀ (uuids : Nat → List Char) (P : Polygon),
       make_polygon (chars "top_cu") Align.center
         [[Point.mk 0 0, Point.mk 2 2], [Point.mk 4 4]] uuids = Option.some P →
       chars "  (vertex (position -2.000 2.000) (angle 0.0))" ∈ P.lines) := by
  constructor
  · intro polylines B hB
    refine ⟨rfl, rfl, rfl, rfl, ?_⟩
    intro layer align uuids P hP pl hpl p hp
    have h0 : ¬ polylines = [] := by
      intro hcon
      rw [hcon] at hB
      exact Option.noConfusion hB
    rcases make_polygon_inv layer align polylines uuids P h0 hP with ⟨B2, hB2, hbody, htb⟩
    rw [hB] at hB2
    rcases Option.some.inj hB2 with rfl
    exact polygonBody_vertex_mem _ _ _ _ _ _ _ hbody pl hpl p hp
  · refine ⟨svgBounds_c1ex, offset_c1ex, ?_⟩
    intro uuids P hP
    have h0 : ¬ ([[Point.mk 0 0, Point.mk 2 2], [Point.mk 4 4]] : List Polyline) = [] := by
      decide
    rcases make_polygon_inv _ _ _ _ _ h0 hP with ⟨B2, hB2, hbody, htb⟩
    rw [svgBounds_c1ex] at hB2
    rcases Option.some.inj hB2 with rfl
    have hmem := polygonBody_vertex_mem _ _ _ _ _ _ _ hbody
      [Point.mk 0 0, Point.mk 2 2] (by decide) (Point.mk 0 0) (by decide)
    rw [offset_c1ex] at hmem
    rw [vertexLine_c1ex] at hmem
    exact hmem

theorem fmtY_shape (t : ℚ) : ∃ xs a b c, fmtY t = xs ++ ['.', a, b, c] ∧
    '.' ∉ xs ∧ a ≠ '.' ∧ b ≠ '.' ∧ c ≠ '.' := by
  rw [fmtY]
  split
  · rcases fmt3mag_shape t with ⟨xs, a, b, c, h, hxs, ha, hb, hc⟩
    refine ⟨'-' :: xs, a, b, c, by rw [h]; rfl, ?_, ha, hb, hc⟩
    intro hd
    rcases List.mem_cons.1 hd with h2 | h2
    · exact absurd h2 (by decide)
    · exact hxs h2
  · exact fmt3mag_shape (-t)

theorem svgBounds_11 : svgBounds [[Point.mk 1 1]] =
    Option.some { x_min := 1, x_max := 1, y_min := 1, y_max := 1 } := by
  simp [svgBounds, boundsStep]

theorem vertexLine_11 : vertexLine ((1 : ℚ) + 0) ((1 : ℚ) + 0) =
    chars "  (vertex (position 1.000 -1.000) (angle 0.0))" := by
  have h1 : (1 : ℚ) + 0 = 1 := by norm_num
  rw [h1, vertexLine, fmt3_eval_nonneg _ 1000 (by norm_num) (by norm_num [roundTE]),
    fmtY_eval_nonneg _ 1000 (by norm_num) (by norm_num [roundTE])]
  decide

theorem format_float_one : format_float (1 : ℚ) = chars "1.0" := by
  rw [format_float_eval _ (by norm_num),
    fmt3_eval_nonneg _ 1000 (by norm_num) (by norm_num [roundTE])]
  decide

theorem fmt3_one : fmt3 (1 : ℚ) = chars "1.000" := by
  rw [fmt3_eval_nonneg _ 1000 (by norm_num) (by norm_num [roundTE])]
  decide

/-- C5 counterexample: the vertex for source point `(1,1)` with alignment
None is emitted as `(position 1.000 -1.000)`, with fixed three-decimal
rendering `fmt3 1 = "1.000"`, while the Float Formatter canonical form is
`format_float 1 = "1.0"` — so polygon vertex coordinates are not rendered
via the Float Formatter canonical rule. -/
theorem c5_counterexample :
    (∃ P, make_polygon (chars "top_cu") Align.none [[Point.mk 1 1]]
        (fun _ => chars "u") = Option.some P ∧
      chars "  (vertex (position 1.000 -1.000) (angle 0.0))" ∈ P.lines) ∧
    fmt3 (1 : ℚ) = chars "1.000" ∧
    format_float (1 : ℚ) = chars "1.0" ∧
    chars "1.000" ≠ chars "1.0" := by
  refine ⟨?_, fmt3_one, format_float_one, by decide⟩
  rcases make_polygon_total (chars "top_cu") Align.none [[Point.mk 1 1]]
    (fun _ => chars "u") (by decide) with ⟨P, hP⟩
  refine ⟨P, hP, ?_⟩
  rcases make_polygon_inv _ _ _ _ _ (by decide) hP with ⟨B, hB, hbody, htb⟩
  rw [svgBounds_11] at hB
  rcases Option.some.inj hB with rfl
  have hmem := polygonBody_vertex_mem _ _ _ _ _ _ _ hbody [Point.mk 1 1]
    (by decide) (Point.mk 1 1) (by decide)
  rw [show offset Align.none { x_min := 1, x_max := 1, y_min := 1, y_max := 1 } =
    ((0 : ℚ), (0 : ℚ)) from rfl] at hmem
  rw [vertexLine_11] at hmem
  exact hmem

/-- C5 (amended): every line of a polygon block is a header, a style line,
a closing parenthesis, or the vertex line of a source point; a vertex line
renders both coordinates with fixed three-decimal formatting (exactly three
fractional digits, trailing zeros kept); the symbol text-label Y positions
are rendered via the Float Formatter. -/
theorem c5_vertex_rendering :
    (∀ (layer : List Char) (dx dy : ℚ) (uuids : Nat → List Char)
        (polylines : List Polyline) (k : Nat) (ls : List (List Char)),
      polygonBody layer dx dy uuids k polylines = Option.some ls →
      ∀ l ∈ ls, (∃ r, l = chars " (polygon \"" ++ r) ∨
        (∃ w f, l = styleLine w f) ∨
        (∃ pl, pl ∈ polylines ∧ ∃ p, p ∈ pl ∧ l = vertexLine (p.x + dx) (p.y + dy)) ∨
        l = chars " )") ∧
    (∀ x t : ℚ, ∃ xs1 a1 b1 c1 xs2 a2 b2 c2,
      vertexLine x t =
        chars "  (vertex (position " ++ ((xs1 ++ ['.', a1, b1, c1]) ++ ' ' ::
          (xs2 ++ ['.', a2, b2, c2]) ++ chars ") (angle 0.0))") ∧
      '.' ∉ xs1 ∧ '.' ∉ xs2) ∧
    (∀ (uuid name description keywords author version : List Char)
        (uuid_cmpcat : Option (List Char)) (polylines : List Polyline)
        (now : List Char) (uuids : Nat → List Char) (L : List (List Char)),
      make_symbol uuid name description keywords author version uuid_cmpcat
        polylines now uuids = Option.some L →
      ∃ P, make_polygon (chars "sym_outlines") Align.center polylines uuids =
          Option.some P ∧
        (chars "  (align center top) (height 2.5) (position 0.0 " ++
          format_float (P.transformed_bounds.y_min - 1.27) ++
          chars ") (rotation 0.0)") ∈ L ∧
        (chars "  (align center bottom) (height 2.5) (position 0.0 " ++
          format_float (P.transformed_bounds.y_max + 1.27) ++
          chars ") (rotation 0.0)") ∈ L) := by
  refine ⟨polygonBody_line_shape, ?_, ?_⟩
  · intro x t
    rcases fmt3_shape x with ⟨xs1, a1, b1, c1, h1, hx1, ha1, hb1, hc1⟩
    rcases fmtY_shape t with ⟨xs2, a2, b2, c2, h2, hx2, ha2, hb2, hc2⟩
    refine ⟨xs1, a1, b1, c1, xs2, a2, b2, c2, ?_, hx1, hx2⟩
    rw [vertexLine, h1, h2]
    simp
  · intro uuid name description keywords author version uuid_cmpcat polylines now uuids L h
    rcases make_symbol_inv uuid name description keywords author version uuid_cmpcat
      polylines now uuids L h with ⟨P, hP, hL⟩
    refine ⟨P, hP, ?_, ?_⟩ <;> rw [hL] <;> simp

theorem c5_witness :
    ∃ ls, polygonBody (chars "top_cu") 0 0 (fun _ => chars "u") 0 [[Point.mk 1 1]] =
        Option.some ls ∧
      ∀ l ∈ ls, (∃ r, l = chars " (polygon \"" ++ r) ∨
        (∃ w f, l = styleLine w f) ∨
        (∃ pl, pl ∈ ([[Point.mk 1 1]] : List Polyline) ∧ ∃ p, p ∈ pl ∧
          l = vertexLine (p.x + 0) (p.y + 0)) ∨
        l = chars " )" := by
  rcases polygonBody_total (chars "top_cu") 0 0 (fun _ => chars "u") [[Point.mk 1 1]]
    (by decide) 0 with ⟨ls, hls⟩
  exact ⟨ls, hls, c5_vertex_rendering.1 _ _ _ _ _ _ _ hls⟩

/-- C3: evaluation of the symbol document exactly as `main` builds it, at
author "Alice" and keywords "widget": the `(keywords ...)` line carries the
author value and the `(author ...)` line the keywords value, because main
passes the metadata positionally in the order (name, description, author,
keywords, version) into parameters ordered (name, description, keywords,
author, version); moreover a double quote embedded in the name is inserted
verbatim, not escaped. -/
theorem c3_metadata_swap :
    ∃ L, mainSymbol (chars "u0") (chars "N\"Q") (chars "D") (chars "Alice")
        (chars "widget") (chars "0.1.0") Option.none [] (chars "T")
        (fun _ => chars "u") = Option.some L ∧
      (chars " (keywords \"Alice\")") ∈ L ∧
      (chars " (author \"widget\")") ∈ L ∧
      (chars " (name \"N\"Q\")") ∈ L := by
  have hpoly : make_polygon (chars "sym_outlines") Align.center []
      (fun _ => chars "u") =
      Option.some { lines := [], transformed_bounds := Bounds.default } := by
    rw [make_polygon, if_pos rfl]
  rw [mainSymbol, make_symbol.eq_def, hpoly]
  have hf1 : format_float (Bounds.default.y_min - 1.27) = chars "-1.27" := by
    have hv : (Bounds.default.y_min - 1.27 : ℚ) = -1.27 := by
      norm_num [Bounds.default]
    rw [hv, format_float_m127]
  have hf2 : format_float (Bounds.default.y_max + 1.27) = chars "1.27" := by
    have hv : (Bounds.default.y_max + 1.27 : ℚ) = 1.27 := by
      norm_num [Bounds.default]
    rw [hv, format_float_127]
  dsimp only
  rw [hf1, hf2]
  refine ⟨_, rfl, ?_, ?_, ?_⟩ <;> decide

theorem isPolygonStart_pre_false (s : String) (rest : List Char)
    (h3 : 3 ≤ (chars s).length) (hne : (chars s).take 3 ≠ chars " (p") :
    isPolygonStart (chars s ++ rest) = false := by
  rw [isPolygonStart, take_app_of_ge _ _ _ h3]
  exact beq_eq_false_iff_ne.2 hne

/-- C8: on the empty polyline collection generation does not fail: the
polygon emitter yields zero polygon blocks (not an empty polygon block) and
the footprint builder emits a well-formed shell — identifier, name and
description lines and the closing parenthesis — with no polygon children. -/
theorem c8_empty_input (layer name description : List Char) (align : Align)
    (uuids : Nat → List Char) :
    make_polygon layer align [] uuids =
      Option.some { lines := [], transformed_bounds := Bounds.default } ∧
    make_footprint layer name description align [] uuids =
      Option.some [chars "(footprint " ++ uuids 0,
                   chars " (name \"" ++ name ++ chars "\")",
                   chars " (description \"" ++ description ++ chars "\")",
                   chars ")"] ∧
    List.countP isPolygonStart
      [chars "(footprint " ++ uuids 0,
       chars " (name \"" ++ name ++ chars "\")",
       chars " (description \"" ++ description ++ chars "\")",
       chars ")"] = 0 := by
  refine ⟨by rw [make_polygon, if_pos rfl], by simp [make_footprint], ?_⟩
  have h1 : isPolygonStart (chars "(footprint " ++ uuids 0) = false :=
    isPolygonStart_pre_false _ _ (by decide) (by decide)
  have h2 : isPolygonStart (chars " (name \"" ++ (name ++ chars "\")")) = false :=
    isPolygonStart_pre_false _ _ (by decide) (by decide)
  have h3 : isPolygonStart (chars " (description \"" ++ (description ++ chars "\")")) =
      false := isPolygonStart_pre_false _ _ (by decide) (by decide)
  have h4 : isPolygonStart (chars ")") = false := by decide
  simp only [List.countP_cons, List.countP_nil, List.append_assoc, h1, h2, h3, h4]
  norm_num

/-- C10: for every collection in which every polyline is non-empty, the
polygon, footprint and symbol builders are total: no indexing panic is
reachable, so each returns a result (the `none` branches that model the
out-of-bounds panics are not taken). -/
theorem c10_totality (layer name description uuid keywords author version now : List Char)
    (align : Align) (uuid_cmpcat : Option (List Char)) (polylines : List Polyline)
    (uuids : Nat → List Char) (h : ∀ pl ∈ polylines, pl ≠ []) :
    (∃ P, make_polygon layer align polylines uuids = Option.some P) ∧
    (∃ L, make_footprint layer name description align polylines uuids = Option.some L) ∧
    (∃ L, make_symbol uuid name description keywords author version uuid_cmpcat
        polylines now uuids = Option.some L) :=
  ⟨make_polygon_total layer align polylines uuids h,
   make_footprint_total layer name description align polylines uuids h,
   make_symbol_total uuid name description keywords author version uuid_cmpcat
     polylines now uuids h⟩

theorem c10_totality_witness :
    ∃ P, make_polygon (chars "top_cu") Align.none [[Point.mk 1 1]]
      (fun _ => chars "u") = Option.some P :=
  (c10_totality (chars "top_cu") (chars "n") (chars "d") (chars "u0") (chars "k")
    (chars "a") (chars "v") (chars "T") Align.none Option.none [[Point.mk 1 1]]
    (fun _ => chars "u") (by decide)).1

theorem c1_witness :
    ∃ P, make_polygon (chars "top_cu") Align.center
        [[Point.mk 0 0, Point.mk 2 2], [Point.mk 4 4]] (fun _ => chars "u") =
        Option.some P ∧
      chars "  (vertex (position -2.000 2.000) (angle 0.0))" ∈ P.lines := by
  rcases make_polygon_total (chars "top_cu") Align.center
    [[Point.mk 0 0, Point.mk 2 2], [Point.mk 4 4]] (fun _ => chars "u")
    (by decide) with ⟨P, hP⟩
  exact ⟨P, hP, c1_offsets_and_vertices.2.2.2 _ P hP⟩

theorem c2_witness :
    isClosed ([Point.mk 0 0, Point.mk 1 1, Point.mk 0 0].dropLast) = false :=
  (c2_closedness [Point.mk 0 0, Point.mk 1 1, Point.mk 0 0] (by decide)).2.2
    (by decide) (by decide) (by decide)

theorem c6_symbol_labels_witness :
    ∃ L, make_symbol (chars "u0") (chars "n") (chars "d") (chars "k") (chars "a")
        (chars "v") Option.none [] (chars "T") (fun _ => chars "u") = Option.some L ∧
      L.countP isTextLine = 2 := by
  rcases make_symbol_total (chars "u0") (chars "n") (chars "d") (chars "k") (chars "a")
    (chars "v") Option.none [] (chars "T") (fun _ => chars "u") (by simp) with ⟨L, hL⟩
  rcases c6_symbol_labels _ _ _ _ _ _ _ _ _ _ _ hL with ⟨P, hP, hpre, hcount, hm1, hm2⟩
  exact ⟨L, hL, hcount⟩

theorem c7_bounds_witness :
    svgBounds [[Point.mk 1 2]] =
      Option.some { x_min := 1, x_max := 1, y_min := 2, y_max := 2 } ∧
    ∃ pl ∈ ([[Point.mk 1 2]] : List Polyline), ∃ p ∈ pl,
      p.x = ({ x_min := 1, x_max := 1, y_min := 2, y_max := 2 } : BBox).x_min := by
  have heval : svgBounds [[Point.mk 1 2]] =
      Option.some { x_min := 1, x_max := 1, y_min := 2, y_max := 2 } := by
    simp [svgBounds, boundsStep]
  exact ⟨heval, (c7_bounds _ _ heval).2.1⟩

theorem c9_witness :
    ∃ L hd rest w f, polylineLines (chars "u") (chars "top_cu") 0 0 [Point.mk 0 0] =
        Option.some L ∧
      L = hd :: (chars "  (width " ++ w ++ chars ") (fill " ++ f ++
        chars ") (grab_area " ++ f ++ chars ")") :: rest ∧
      f = chars "true" := by
  have hL := polylineLines_eq (chars "u") (chars "top_cu") 0 0 [Point.mk 0 0] (by decide)
  rcases c9_grab_area _ _ _ _ _ _ hL with ⟨hd, rest, w, f, h1, h2, h3⟩
  exact ⟨_, hd, rest, w, f, hL, h1, (h2 (by decide)).2⟩

end SvgLib
